import Mathlib

/-!
Shallow embedding of the squint vite plugin (src/index.mjs): path helpers
from the node `path` module as used by the plugin, the two closure-captured
registries (`srcFileMap`, `compiledFileMap`), and the three hooks
`resolveId`, `load`, `handleHotUpdate`.  Paths are strings, the filesystem
is a finite map from paths to contents and modification times, and the
external compiler `compileString` is an opaque parameter returning
`Except`.
-/

namespace SquintVite

/-! ### String helpers, structurally recursive so the kernel evaluates
them on literals. -/

/-- Split on `/`, accumulating the current component reversed. -/
def splitSlashAux : List Char → List Char → List String
  | [], acc => [String.mk acc.reverse]
  | c :: rest, acc =>
      if c = '/' then String.mk acc.reverse :: splitSlashAux rest []
      else splitSlashAux rest (c :: acc)

/-- Model of `p.split("/")`. -/
def splitOnSlash (p : String) : List String :=
  splitSlashAux p.toList []

/-- Join components with `/`. -/
def intercalateSlash : List String → String
  | [] => ""
  | [s] => s
  | s :: rest => s ++ "/" ++ intercalateSlash rest

/-- Model of `s.startsWith(pre)`. -/
def strStartsWith (s pre : String) : Bool :=
  pre.toList.isPrefixOf s.toList

/-- Model of `s.endsWith(suf)` (used for the cljs-suffix regex tests). -/
def strEndsWith (s suf : String) : Bool :=
  suf.toList.reverse.isPrefixOf s.toList.reverse

/-- Drop the last `n` characters. -/
def strDropRight (s : String) (n : Nat) : String :=
  String.mk (s.toList.take (s.toList.length - n))

/-! ### Node path-module semantics (POSIX), as used by the plugin.
All importers and bases the plugin feeds to these are absolute paths. -/

/-- One normalization step over path components: drops empty and `.`
components, resolves `..` against the accumulator (at the root, `..`
stays at the root, as in POSIX for absolute paths). -/
def normStep (acc : List String) (part : String) : List String :=
  if part = "" ∨ part = "." then acc
  else if part = ".." then acc.dropLast
  else acc ++ [part]

/-- Components of an absolute path after normalization. -/
def absParts (p : String) : List String :=
  (splitOnSlash p).foldl normStep []

/-- Normalized form of an absolute path. -/
def normalizeAbs (p : String) : String :=
  "/" ++ intercalateSlash (absParts p)

/-- Model of `path.resolve(dir, p)` for an absolute `dir`: an absolute `p` wins,
otherwise `p` is joined onto `dir`; the result is normalized. -/
def pathResolve (dir p : String) : String :=
  if strStartsWith p "/" then normalizeAbs p
  else normalizeAbs (dir ++ "/" ++ p)

/-- Model of `path.dirname`: everything before the last slash; `.` when there is no
slash; `/` when the parent is the root. -/
def dirname (p : String) : String :=
  let parts := splitOnSlash p
  if parts.length ≤ 1 then "."
  else if parts.dropLast.all (fun s => s = "") then "/"
  else intercalateSlash parts.dropLast

/-- Model of `path.basename`: the component after the last slash. -/
def basename (p : String) : String :=
  ((splitOnSlash p).getLast?).getD p

/-- Index of the last `.` at a positive index, scanning `cs` with `i` the
index of its head and `acc` the best index seen so far. -/
def lastDotIdxAux : List Char → Nat → Option Nat → Option Nat
  | [], _, acc => acc
  | c :: rest, i, acc =>
      lastDotIdxAux rest (i + 1) (if c = '.' ∧ 0 < i then some i else acc)

/-- Model of `path.extname`: from the last dot of the basename to the end; empty
when the basename has no dot past its first character, or is `..`. -/
def extname (p : String) : String :=
  let b := basename p
  if b = ".." then ""
  else
    match lastDotIdxAux b.toList 0 none with
    | none => ""
    | some i => String.mk (b.toList.drop i)

/-- Function `hasExtension` from src/index.mjs: `path.extname(filePath).length > 0`. -/
def hasExtension (filePath : String) : Bool :=
  (extname filePath).length > 0

/-- Drop the longest common prefix of two component lists. -/
def dropCommon : List String → List String → List String × List String
  | [], bs => ([], bs)
  | a :: as, [] => (a :: as, [])
  | a :: as, b :: bs =>
      if a = b then dropCommon as bs else (a :: as, b :: bs)

/-- Model of `path.relative(src, dst)` for absolute arguments: strip the common
prefix, climb with `..` for what remains of `src`, then descend into
`dst`. -/
def pathRelative (src dst : String) : String :=
  let (up, down) := dropCommon (absParts src) (absParts dst)
  intercalateSlash (List.replicate up.length ".." ++ down)

/-- Model of the replace call rewriting a trailing `.cljs` to `.jsx`: the regex is anchored at the end, so
only a trailing `.cljs` is rewritten. -/
def replaceCljsExt (s : String) : String :=
  if strEndsWith s ".cljs" then strDropRight s 5 ++ ".jsx" else s

/-- Function `isLibraryImport` from src/index.mjs. -/
def isLibraryImport (importPath : String) : Bool :=
  !(strStartsWith importPath "." || strStartsWith importPath "/")

/-! ### Association lists standing for JS object maps. -/

/-- Property read `m[k]`. -/
def alookup {α : Type} : List (String × α) → String → Option α
  | [], _ => none
  | (k, v) :: rest, q => if k = q then some v else alookup rest q

/-- Property write `m[k] = v`: overwrite in place, else append. -/
def aset {α : Type} : List (String × α) → String → α → List (String × α)
  | [], k, v => [(k, v)]
  | (k0, v0) :: rest, k, v =>
      if k0 = k then (k, v) :: rest else (k0, v0) :: aset rest k v

/-! ### Filesystem and plugin state. -/

/-- The filesystem collaborator: contents and modification times. -/
structure FS where
  files : List (String × String)
  mtimes : List (String × Nat)
deriving DecidableEq, Repr

/-- Function `isFile` from src/index.mjs (`statSync` with `throwIfNoEntry: false`). -/
def isFile (fs : FS) (p : String) : Bool :=
  (alookup fs.files p).isSome

/-- The two closure-captured registries:
`srcFileMap : {sourceFile: [compiledFile, srcFileModTime]};`
`compiledFileMap : {compiledFile: sourceFile}`. -/
structure PluginState where
  srcFileMap : List (String × (String × Nat))
  compiledFileMap : List (String × String)
deriving DecidableEq, Repr

/-- Plugin configuration: `config.root` and the `outputDir` option. -/
structure Config where
  projectRoot : String
  outputDir : String
deriving DecidableEq, Repr

/-! ### resolveId (src/index.mjs lines 42-79). -/

inductive ResolveResult
  | deferR
  | resolved (id : String)
deriving DecidableEq, Repr

/-- Expression `dirname(srcFile || importer)`: the directory relative imports are
joined against — the original source directory when the importer is a
known compiled file. -/
def baseDir (st : PluginState) (importer : String) : String :=
  dirname ((alookup st.compiledFileMap importer).getD importer)

/-- The specifier after the extension probe: an extension-less `id` whose
resolved candidate plus `.cljs` names a file is replaced by that file. -/
def probedId (fs : FS) (st : PluginState) (id importer : String) : String :=
  let absPath := pathResolve (baseDir st importer) id
  if !hasExtension id then
    let cand := absPath ++ ".cljs"
    if isFile fs cand then cand else id
  else id

/-- Template `projectRoot/outputDir/relPath` with `relPath` the
project-relative source path, `.cljs` replaced by `.jsx`. -/
def outFor (cfg : Config) (srcAbs : String) : String :=
  cfg.projectRoot ++ "/" ++ cfg.outputDir ++ "/" ++
    replaceCljsExt (pathRelative cfg.projectRoot srcAbs)

/-- The absolute source path the call will register, when the probed
specifier carries the `.cljs` extension; `none` on every other branch. -/
def resolvedSource (fs : FS) (st : PluginState) (id importer : String) :
    Option String :=
  let id1 := probedId fs st id importer
  if strEndsWith id1 ".cljs" then some (pathResolve (baseDir st importer) id1)
  else none

/-- The `resolveId` hook.  `scan` is `options.scan`.  Returns the hook
result together with the updated registries. -/
def resolveId (cfg : Config) (fs : FS) (st : PluginState)
    (id importer : String) (scan : Bool) : ResolveResult × PluginState :=
  if scan then (.deferR, st)
  else
    match resolvedSource fs st id importer with
    | some srcAbs =>
        let outPath := outFor cfg srcAbs
        (.resolved outPath,
          ⟨aset st.srcFileMap srcAbs (outPath, 0),
           aset st.compiledFileMap outPath srcAbs⟩)
    | none =>
        if (alookup st.compiledFileMap importer).isSome
            && !isLibraryImport (probedId fs st id importer) then
          (.resolved (pathResolve (baseDir st importer) id), st)
        else
          (.deferR, st)

/-! ### load (src/index.mjs lines 81-105). -/

inductive LoadResult
  | deferL
  | loaded (code : String)
  | err (e : String)
deriving DecidableEq, Repr

/-- Outcome of one `load` call: hook result, filesystem and registries
after the call, and how often the external compiler was invoked, the
filesystem read and the artifact written. -/
structure LoadOut where
  result : LoadResult
  fs : FS
  st : PluginState
  compilerCalls : Nat
  fsReads : Nat
  fsWrites : Nat
deriving DecidableEq, Repr

/-- Expression `srcFileMap[srcFile]?.[1] || 0`. -/
def modTimeOf (st : PluginState) (srcFile : String) : Nat :=
  match alookup st.srcFileMap srcFile with
  | some (_, t) => t
  | none => 0

/-- A `load` either finishes synchronously or suspends at the single
`await compileString(...)` with the source text and observed mtime. -/
inductive Phase1Out
  | done (o : LoadOut)
  | suspend (srcFile code : String) (mtime : Nat)
deriving DecidableEq, Repr

/-- The synchronous part of `load` up to the compiler `await`: reverse
lookup, `statSync`, staleness check, and the source read. -/
def loadPhase1 (fs : FS) (st : PluginState) (id : String) : Phase1Out :=
  match alookup st.compiledFileMap id with
  | none => .done ⟨.deferL, fs, st, 0, 0, 0⟩
  | some srcFile =>
      match alookup fs.mtimes srcFile with
      | none => .done ⟨.err "ENOENT", fs, st, 0, 1, 0⟩
      | some mtime =>
          if modTimeOf st srcFile < mtime then
            match alookup fs.files srcFile with
            | none => .done ⟨.err "ENOENT", fs, st, 0, 2, 0⟩
            | some code => .suspend srcFile code mtime
          else
            match alookup fs.files id with
            | none => .done ⟨.err "ENOENT", fs, st, 0, 2, 0⟩
            | some out => .done ⟨.loaded out, fs, st, 0, 2, 0⟩

/-- The part of `load` after the compiler resolves: on success write the
artifact, record `[id, stats.mtimeMs]`, and read the artifact back; on
rejection propagate the error with nothing written or recorded. -/
def loadPhase2 (compile : String → String → Except String String)
    (fs : FS) (st : PluginState) (id srcFile code : String) (mtime : Nat) :
    LoadOut :=
  match compile code srcFile with
  | .error e => ⟨.err e, fs, st, 1, 2, 0⟩
  | .ok js =>
      let fs1 : FS := ⟨aset fs.files id js, fs.mtimes⟩
      let st1 : PluginState :=
        ⟨aset st.srcFileMap srcFile (id, mtime), st.compiledFileMap⟩
      match alookup fs1.files id with
      | none => ⟨.err "ENOENT", fs1, st1, 1, 3, 1⟩
      | some out => ⟨.loaded out, fs1, st1, 1, 3, 1⟩

/-- The `load` hook: phase 1, then — when it suspended — phase 2. -/
def load (compile : String → String → Except String String)
    (fs : FS) (st : PluginState) (id : String) : LoadOut :=
  match loadPhase1 fs st id with
  | .done o => o
  | .suspend srcFile code mtime => loadPhase2 compile fs st id srcFile code mtime

/-- Two `load` calls on the same id racing under cooperative scheduling:
both run phase 1 before either compiler resolves (phase 1 is synchronous
and mutates nothing, so both observe the same state), then each completes
its phase 2 in turn. -/
def twoConcurrentLoads (compile : String → String → Except String String)
    (fs : FS) (st : PluginState) (id : String) : LoadOut × LoadOut :=
  match loadPhase1 fs st id with
  | .done o1 => (o1, load compile o1.fs o1.st id)
  | .suspend srcFile code mtime =>
      let o1 := loadPhase2 compile fs st id srcFile code mtime
      let o2 := loadPhase2 compile o1.fs o1.st id srcFile code mtime
      (o1, o2)

/-! ### handleHotUpdate (src/index.mjs lines 106-122). -/

/-- The `handleHotUpdate` hook.  `graph` is the set of module ids the host
module graph knows (`server.moduleGraph.getModuleById`).  Returning `none`
models the hook returning `undefined`, which leaves the host pending
module list unchanged. -/
def handleHotUpdate (graph : List String) (st : PluginState)
    (file : String) (modules : List String) : Option (List String) :=
  match alookup st.srcFileMap file with
  | none => none
  | some (compiledFile, _) =>
      if compiledFile = "" then none
      else if graph.contains compiledFile then some (modules ++ [compiledFile])
      else some modules

/-- The pending module list the host ends up with: an `undefined` return
keeps the incoming list. -/
def effectivePending (r : Option (List String)) (modules : List String) :
    List String :=
  r.getD modules

/-! ### Map lemmas. -/

theorem alookup_aset_self {α : Type} (m : List (String × α)) (k : String)
    (v : α) : alookup (aset m k v) k = some v := by
  induction m with
  | nil => simp [aset, alookup]
  | cons hd tl ih =>
      obtain ⟨k0, v0⟩ := hd
      by_cases h : k0 = k
      · simp [aset, h, alookup]
      · simp [aset, h, alookup, ih]

theorem alookup_aset_ne {α : Type} (m : List (String × α)) (k q : String)
    (v : α) (h : k ≠ q) : alookup (aset m k v) q = alookup m q := by
  induction m with
  | nil => simp [aset, alookup, h]
  | cons hd tl ih =>
      obtain ⟨k0, v0⟩ := hd
      by_cases h0 : k0 = k
      · subst h0
        simp [aset, alookup, h]
      · simp [aset, h0, alookup, ih]

/-! ### Concrete fixtures. -/

/-- Project root `/p`, output directory `out`. -/
def cfgP : Config := ⟨"/p", "out"⟩

/-- Two source files under `/p/src`. -/
def fsAB : FS :=
  ⟨[("/p/src/a.cljs", "A"), ("/p/src/b.cljs", "B")],
   [("/p/src/a.cljs", 3), ("/p/src/b.cljs", 4)]⟩

/-- One source file with modification time 7. -/
def fsA7 : FS :=
  ⟨[("/p/src/a.cljs", "(def a 1)")], [("/p/src/a.cljs", 7)]⟩

/-- Empty registries. -/
def st0 : PluginState := ⟨[], []⟩

/-- Registries after a resolution of `/p/src/a.cljs`, last compiled at 5. -/
def stA : PluginState :=
  ⟨[("/p/src/a.cljs", ("/p/out/src/a.jsx", 5))],
   [("/p/out/src/a.jsx", "/p/src/a.cljs")]⟩

/-- Registries after a resolution of `/p/src/a.cljs`, never compiled. -/
def stReg : PluginState :=
  ⟨[("/p/src/a.cljs", ("/p/out/src/a.jsx", 0))],
   [("/p/out/src/a.jsx", "/p/src/a.cljs")]⟩

/-- A compiler that succeeds, prefixing the source text. -/
def compileOk : String → String → Except String String :=
  fun code _ => Except.ok ("JS:" ++ code)

/-- A compiler that rejects every input. -/
def compileBoom : String → String → Except String String :=
  fun _ _ => Except.error "boom"

/-! ### Claims. -/

/-- Claim C1, counterexample: re-resolving `/p/src/a.cljs` when its record
holds `lastCompiledAt = 5` stores `[outPath, 0]` again
(src/index.mjs line 68), so the stored timestamp after the call is 0, not
the 5 it held before — re-registration resets `lastCompiledAt`. -/
theorem c1_counterexample :
    modTimeOf stA "/p/src/a.cljs" = 5 ∧
    resolvedSource fsAB stA "/p/src/a.cljs" "/p/index.html" =
      some "/p/src/a.cljs" ∧
    modTimeOf
      (resolveId cfgP fsAB stA "/p/src/a.cljs" "/p/index.html" false).2
      "/p/src/a.cljs" = 0 ∧
    (0 : Nat) ≠ 5 := by
  decide

/-- Claim C1, amended: whenever a non-scan `resolveId` call registers a
source path, it stores the deterministic output path together with the
timestamp 0 — so re-registration resets `lastCompiledAt` to the
never-compiled sentinel rather than preserving it. -/
theorem c1_amended_reregistration_resets (cfg : Config) (fs : FS)
    (st : PluginState) (id importer s : String)
    (h : resolvedSource fs st id importer = some s) :
    alookup (resolveId cfg fs st id importer false).2.srcFileMap s =
      some (outFor cfg s, 0) := by
  simp [resolveId, h, alookup_aset_self]

/-- Witness for the amended C1 at a concrete re-registration. -/
theorem c1_amended_witness :
    alookup
      (resolveId cfgP fsAB stA "/p/src/a.cljs" "/p/index.html" false).2.srcFileMap
      "/p/src/a.cljs" = some (outFor cfgP "/p/src/a.cljs", 0) :=
  c1_amended_reregistration_resets cfgP fsAB stA "/p/src/a.cljs"
    "/p/index.html" "/p/src/a.cljs" (by decide)

/-- Claim C2: any two non-scan `resolveId` calls whose candidates resolve
to the same source path return the same output identity, namely the
deterministic function `outFor` of project root, output directory and the
project-relative source path. -/
theorem c2_resolution_idempotent (cfg : Config) (fs1 fs2 : FS)
    (st1 st2 : PluginState) (id1 imp1 id2 imp2 s : String)
    (h1 : resolvedSource fs1 st1 id1 imp1 = some s)
    (h2 : resolvedSource fs2 st2 id2 imp2 = some s) :
    (resolveId cfg fs1 st1 id1 imp1 false).1 = .resolved (outFor cfg s) ∧
    (resolveId cfg fs1 st1 id1 imp1 false).1 =
      (resolveId cfg fs2 st2 id2 imp2 false).1 := by
  simp [resolveId, h1, h2]

/-- Witness for C2: the direct specifier `/p/src/a.cljs` and the
extension-less `./a` from another importer resolve to the same output. -/
theorem c2_witness :
    (resolveId cfgP fsAB st0 "/p/src/a.cljs" "/p/index.html" false).1 =
      .resolved (outFor cfgP "/p/src/a.cljs") ∧
    (resolveId cfgP fsAB st0 "/p/src/a.cljs" "/p/index.html" false).1 =
      (resolveId cfgP fsAB st0 "./a" "/p/src/main.js" false).1 :=
  c2_resolution_idempotent cfgP fsAB fsAB st0 st0 "/p/src/a.cljs"
    "/p/index.html" "./a" "/p/src/main.js" "/p/src/a.cljs"
    (by decide) (by decide)

/-- Claim C3: after a load that compiles successfully, a second load of
the same output id with the source modification time unchanged invokes the
compiler zero times and returns exactly the content the first load
persisted. -/
theorem c3_warm_load (compile : String → String → Except String String)
    (fs : FS) (st : PluginState) (id src code js : String) (m : Nat)
    (h1 : alookup st.compiledFileMap id = some src)
    (h2 : alookup fs.mtimes src = some m)
    (h3 : modTimeOf st src < m)
    (h4 : alookup fs.files src = some code)
    (h5 : compile code src = .ok js) :
    (load compile fs st id).result = .loaded js ∧
    alookup (load compile fs st id).fs.files id = some js ∧
    (load compile (load compile fs st id).fs (load compile fs st id).st
        id).compilerCalls = 0 ∧
    (load compile (load compile fs st id).fs (load compile fs st id).st
        id).result = .loaded js := by
  have hload : load compile fs st id =
      ⟨.loaded js, ⟨aset fs.files id js, fs.mtimes⟩,
       ⟨aset st.srcFileMap src (id, m), st.compiledFileMap⟩, 1, 3, 1⟩ := by
    simp [load, loadPhase1, loadPhase2, h1, h2, h3, h4, h5,
      alookup_aset_self]
  have hmod :
      modTimeOf (⟨aset st.srcFileMap src (id, m), st.compiledFileMap⟩ :
        PluginState) src = m := by
    simp [modTimeOf, alookup_aset_self]
  rw [hload]
  refine ⟨rfl, alookup_aset_self _ _ _, ?_, ?_⟩ <;>
    simp [load, loadPhase1, h1, h2, hmod, alookup_aset_self]

/-- Witness for C3 at a concrete stale record. -/
theorem c3_witness :
    (load compileOk fsA7 stReg "/p/out/src/a.jsx").result =
      .loaded "JS:(def a 1)" ∧
    alookup (load compileOk fsA7 stReg "/p/out/src/a.jsx").fs.files
      "/p/out/src/a.jsx" = some "JS:(def a 1)" ∧
    (load compileOk (load compileOk fsA7 stReg "/p/out/src/a.jsx").fs
        (load compileOk fsA7 stReg "/p/out/src/a.jsx").st
        "/p/out/src/a.jsx").compilerCalls = 0 ∧
    (load compileOk (load compileOk fsA7 stReg "/p/out/src/a.jsx").fs
        (load compileOk fsA7 stReg "/p/out/src/a.jsx").st
        "/p/out/src/a.jsx").result = .loaded "JS:(def a 1)" :=
  c3_warm_load compileOk fsA7 stReg "/p/out/src/a.jsx" "/p/src/a.cljs"
    "(def a 1)" "JS:(def a 1)" 7 (by decide) (by decide) (by decide)
    (by decide) rfl

/-- Claim C4: when the compiler rejects, `load` propagates the error with
the filesystem and both registries unchanged and nothing written, and a
subsequent load of the same id invokes the compiler again. -/
theorem c4_compile_failure_atomic
    (compile : String → String → Except String String)
    (fs : FS) (st : PluginState) (id src code e : String) (m : Nat)
    (h1 : alookup st.compiledFileMap id = some src)
    (h2 : alookup fs.mtimes src = some m)
    (h3 : modTimeOf st src < m)
    (h4 : alookup fs.files src = some code)
    (h5 : compile code src = .error e) :
    load compile fs st id = ⟨.err e, fs, st, 1, 2, 0⟩ ∧
    (load compile (load compile fs st id).fs (load compile fs st id).st
        id).compilerCalls = 1 := by
  have hload : load compile fs st id = ⟨.err e, fs, st, 1, 2, 0⟩ := by
    simp [load, loadPhase1, loadPhase2, h1, h2, h3, h4, h5]
  refine ⟨hload, ?_⟩
  rw [hload]
  simp [hload]

/-- Witness for C4 with a rejecting compiler. -/
theorem c4_witness :
    load compileBoom fsA7 stReg "/p/out/src/a.jsx" =
      ⟨.err "boom", fsA7, stReg, 1, 2, 0⟩ ∧
    (load compileBoom (load compileBoom fsA7 stReg "/p/out/src/a.jsx").fs
        (load compileBoom fsA7 stReg "/p/out/src/a.jsx").st
        "/p/out/src/a.jsx").compilerCalls = 1 :=
  c4_compile_failure_atomic compileBoom fsA7 stReg "/p/out/src/a.jsx"
    "/p/src/a.cljs" "(def a 1)" "boom" 7 (by decide) (by decide)
    (by decide) (by decide) rfl

/-- Claim C5: with `options.scan` set, `resolveId` defers unconditionally
and returns the registries unchanged; the result is the same for every
filesystem, so no probe is consulted. -/
theorem c5_scan_noop (cfg : Config) (fs : FS) (st : PluginState)
    (id importer : String) :
    resolveId cfg fs st id importer true = (.deferR, st) :=
  rfl

/-- Claim C6: with root `/p` and output directory `out`, resolving
`/p/src/a.cljs` yields `/p/out/src/a.jsx`, and then resolving `./b` with
importer `/p/out/src/a.jsx` (a known compiled file, so the join happens in
the source tree) yields `/p/out/src/b.jsx`. -/
theorem c6_concrete_scenario :
    (resolveId cfgP fsAB st0 "/p/src/a.cljs" "/p/index.html" false).1 =
      .resolved "/p/out/src/a.jsx" ∧
    (resolveId cfgP fsAB
        (resolveId cfgP fsAB st0 "/p/src/a.cljs" "/p/index.html" false).2
        "./b" "/p/out/src/a.jsx" false).1 =
      .resolved "/p/out/src/b.jsx" := by
  decide

/-- Claim C7: for a changed path with no `srcFileMap` entry the hook
returns `undefined`, which leaves the host pending module list
unchanged. -/
theorem c7_untracked_unchanged (graph : List String) (st : PluginState)
    (file : String) (modules : List String)
    (h : alookup st.srcFileMap file = none) :
    handleHotUpdate graph st file modules = none ∧
    effectivePending (handleHotUpdate graph st file modules) modules =
      modules := by
  simp [handleHotUpdate, effectivePending, h]

/-- Witness for C7 at an untracked path. -/
theorem c7_witness :
    handleHotUpdate [] st0 "/p/src/c.cljs" ["m1"] = none ∧
    effectivePending (handleHotUpdate [] st0 "/p/src/c.cljs" ["m1"])
      ["m1"] = ["m1"] :=
  c7_untracked_unchanged [] st0 "/p/src/c.cljs" ["m1"] (by decide)

/-- Claim C8: the code has no in-flight table, so two loads racing on a
stale output id — both running the synchronous phase before either
compiler promise resolves — invoke the compiler twice and write twice,
contradicting the claimed exactly-once behavior; both callers do end up
with the same content. -/
theorem c8_concurrent_double_compile :
    (twoConcurrentLoads compileOk fsA7 stReg "/p/out/src/a.jsx").1.compilerCalls +
      (twoConcurrentLoads compileOk fsA7 stReg "/p/out/src/a.jsx").2.compilerCalls = 2 ∧
    (twoConcurrentLoads compileOk fsA7 stReg "/p/out/src/a.jsx").1.fsWrites +
      (twoConcurrentLoads compileOk fsA7 stReg "/p/out/src/a.jsx").2.fsWrites = 2 ∧
    (twoConcurrentLoads compileOk fsA7 stReg "/p/out/src/a.jsx").1.result =
      .loaded "JS:(def a 1)" ∧
    (twoConcurrentLoads compileOk fsA7 stReg "/p/out/src/a.jsx").2.result =
      .loaded "JS:(def a 1)" := by
  decide

/-- Claim C9: for an id with no reverse-index entry, `load` defers with
the filesystem and registries unchanged, zero compiler invocations, zero
filesystem reads and zero writes. -/
theorem c9_unknown_id_defers
    (compile : String → String → Except String String)
    (fs : FS) (st : PluginState) (id : String)
    (h : alookup st.compiledFileMap id = none) :
    load compile fs st id = ⟨.deferL, fs, st, 0, 0, 0⟩ := by
  simp [load, loadPhase1, h]

/-- Witness for C9 at an unregistered id. -/
theorem c9_witness :
    load compileOk fsA7 st0 "/q/other.jsx" =
      ⟨.deferL, fsA7, st0, 0, 0, 0⟩ :=
  c9_unknown_id_defers compileOk fsA7 st0 "/q/other.jsx" (by decide)

/-- Claim C10: a non-scan `resolveId` call whose probed candidate does not
end in `.cljs` — whether it defers or rewrites to an absolute path —
returns both registries unchanged. -/
theorem c10_non_cljs_no_mutation (cfg : Config) (fs : FS)
    (st : PluginState) (id importer : String)
    (h : strEndsWith (probedId fs st id importer) ".cljs" = false) :
    (resolveId cfg fs st id importer false).2 = st := by
  have hrs : resolvedSource fs st id importer = none := by
    simp [resolvedSource, h]
  simp only [resolveId, hrs, Bool.false_eq_true, if_false]
  split <;> rfl

/-- Witness for C10: a `.js` import from a compiled file is rewritten to
an absolute path without touching the registries. -/
theorem c10_witness :
    (resolveId cfgP fsA7 stReg "./util.js" "/p/out/src/a.jsx" false).2 =
      stReg :=
  c10_non_cljs_no_mutation cfgP fsA7 stReg "./util.js" "/p/out/src/a.jsx"
    (by decide)

end SquintVite
